import Mathlib

/-!
Verification development for the FTPClient repository (ftputil-based
remote-filesystem layer).  The definitions below shallowly embed the
metadata/parsing/cache/transfer core described in spec.md.  Definitions
for `ftputil/file.py` follow that source file; the listing parser,
parser selector, metadata cache, clock-skew synchronizer, transfer
comparison and path resolver are not present under src/ (only their
tests are), so they are modelled from the spec as indicated in their
doc comments.
-/

namespace FTPClient

/-! ## Calendar arithmetic

Model of the C library `mktime`/`localtime` used by the listing parser.
Local time is identified with UTC; timestamps are seconds since the
Unix epoch 1970-01-01 00:00:00.  The conversion uses the standard
proleptic-Gregorian civil-date algorithms on `Int`.
-/

/-- Number of days from 1970-01-01 to the civil date `y-m-d` (may be
negative for dates before the epoch). -/
def daysFromCivil (y m d : Int) : Int :=
  let y2 := if m ≤ 2 then y - 1 else y
  let era := y2.fdiv 400
  let yoe := y2 - era * 400
  let mp := (m + 9).emod 12
  let doy := (153 * mp + 2).fdiv 5 + d - 1
  let doe := yoe * 365 + yoe.fdiv 4 - yoe.fdiv 100 + doy
  era * 146097 + doe - 719468

/-- Inverse of `daysFromCivil`: the civil date `(y, m, d)` of the day
`z` days after 1970-01-01. -/
def civilFromDays (z : Int) : Int × Int × Int :=
  let z2 := z + 719468
  let era := z2.fdiv 146097
  let doe := z2 - era * 146097
  let yoe := (doe - doe.fdiv 1460 + doe.fdiv 36524 - doe.fdiv 146096).fdiv 365
  let y := yoe + era * 400
  let doy := doe - (365 * yoe + yoe.fdiv 4 - yoe.fdiv 100)
  let mp := (5 * doy + 2).fdiv 153
  let d := doy - (153 * mp + 2).fdiv 5 + 1
  let m := mp + (if mp < 10 then 3 else -9)
  (if m ≤ 2 then y + 1 else y, m, d)

/-- Seconds since the epoch of the local datetime `y-m-d hh:mm:00`,
the model of `time.mktime`. -/
def toSeconds (y m d hh mm : Int) : Int :=
  daysFromCivil y m d * 86400 + hh * 3600 + mm * 60

/-- Year of the local datetime `t` seconds since the epoch, the model
of `time.localtime(t)[0]`. -/
def yearOf (t : Int) : Int :=
  (civilFromDays (t.fdiv 86400)).1

/-! ## Stat results (the MetadataRecord of the spec) -/

/-- Timestamp precision of one minute, in seconds
(`ftputil.stat.MINUTE_PRECISION`). -/
def MINUTE_PRECISION : Option Int := some 60

/-- Timestamp precision of one day, in seconds
(`ftputil.stat.DAY_PRECISION`). -/
def DAY_PRECISION : Option Int := some 86400

/-- Unknown timestamp precision (`ftputil.stat.UNKNOWN_PRECISION`,
which is `None` in the code base). -/
def UNKNOWN_PRECISION : Option Int := none

/-- Modelled from the spec: the MetadataRecord produced by the listing
parser (`ftputil.stat.StatResult`, whose module is not in src/).  Mode
bits, link count, owner and group as plain strings, size, modification
timestamp in seconds since the epoch, a precision tag, the base name
and an optional raw symlink target. -/
structure StatResult where
  st_mode : Nat
  st_nlink : Option Nat
  st_uid : Option String
  st_gid : Option String
  st_size : Option Nat
  st_mtime : Int
  st_mtime_precision : Option Int
  st_name : String
  st_target : Option String
deriving Repr, DecidableEq

/-! ## Tokenization

Model of Python `line.split(None, maxsplit)`: runs of whitespace
separate tokens, and the remainder after `maxsplit` splits is returned
with its leading whitespace stripped.
-/

/-- Whitespace test for listing lines. -/
def isSpace (c : Char) : Bool :=
  c = ' ' ∨ c = '\t' ∨ c = '\r' ∨ c = '\n'

/-- Split off up to `n` whitespace-separated tokens; return them with
the remainder of the line (leading whitespace stripped), the model of
Python `s.split(None, n)`. -/
def splitMax : Nat → List Char → List String × String
  | 0, cs => ([], String.mk (cs.dropWhile isSpace))
  | Nat.succ m, cs =>
    let rest := cs.dropWhile isSpace
    match rest with
    | [] => ([], "")
    | c :: cs2 =>
      let tok := c :: (cs2.takeWhile (fun ch => ¬ isSpace ch))
      let rest2 := cs2.dropWhile (fun ch => ¬ isSpace ch)
      let result := splitMax m rest2
      (String.mk tok :: result.1, result.2)

/-- Parse a nonempty all-digit string as a natural number, the model of
Python `int()` on the unsigned integer fields of a listing line. -/
def parseDecNat (s : String) : Option Nat :=
  let cs := s.toList
  if cs = [] ∨ ¬ cs.all (fun c => c.isDigit) then none
  else some (cs.foldl (fun acc c => acc * 10 + (c.toNat - 48)) 0)

/-- Split a character list at every occurrence of the separator
character; the model of Python `s.split(sep)` for a one-character
separator. -/
def splitChar (sep : Char) : List Char → List (List Char)
  | [] => [[]]
  | c :: rest =>
    if c = sep then [] :: splitChar sep rest
    else
      match splitChar sep rest with
      | [] => [[c]]
      | h :: t => (c :: h) :: t

/-- Split a character list at every occurrence of the four-character
" -> " symlink separator, leftmost first; the model of Python
`s.split(" -> ")`. -/
def splitArrow : List Char → List (List Char)
  | ' ' :: '-' :: '>' :: ' ' :: rest => [] :: splitArrow rest
  | c :: rest =>
    match splitArrow rest with
    | [] => [[c]]
    | h :: t => (c :: h) :: t
  | [] => [[]]

/-! ## Unix-dialect listing parser

Modelled from the spec (section 4.1): the module `ftputil/stat.py` is
not in src/.  A Unix-style line carries a permission string, a link
count, optional owner and group columns, a size, a month/day field
followed by either a year or a time of day, the entry name and an
optional symlink target after a " -> " separator.  An unparsable line
is reported as `none` (the ParserError of the code base); ignorable
lines are recognized separately by `ignoresLine`.
-/

/-- File-type character of a permission string mapped to the type bits
of the mode (the S_IFxxx constants). -/
def fileTypeMode (c : Char) : Option Nat :=
  if c = 'b' then some 0o60000
  else if c = 'c' then some 0o20000
  else if c = 'd' then some 0o40000
  else if c = 'l' then some 0o120000
  else if c = 'p' then some 0o10000
  else if c = 's' then some 0o140000
  else if c = '-' then some 0o100000
  else none

/-- Modelled from the spec: a ten-character Unix permission string
turned into numeric mode bits.  Each of the nine permission positions
contributes its bit when it is not a dash; an "s" in the user-execute
or group-execute position additionally sets the setuid or setgid bit;
the leading character selects the file type. -/
def parseMode (s : String) : Option Nat :=
  match s.toList with
  | [t, ur, uw, ux, gr, gw, gx, otr, otw, otx] =>
    match fileTypeMode t with
    | none => none
    | some ft =>
      let permChars := [ur, uw, ux, gr, gw, gx, otr, otw, otx]
      let bits := permChars.foldl
        (fun acc c => acc * 2 + (if c = '-' then 0 else 1)) 0
      let bits := if ux = 's' then bits ||| 0o4000 else bits
      let bits := if gx = 's' then bits ||| 0o2000 else bits
      some (ft ||| bits)
  | _ => none

/-- Month abbreviation of a Unix listing mapped to the month number. -/
def monthNumber (s : String) : Option Nat :=
  if s = "Jan" then some 1 else if s = "Feb" then some 2
  else if s = "Mar" then some 3 else if s = "Apr" then some 4
  else if s = "May" then some 5 else if s = "Jun" then some 6
  else if s = "Jul" then some 7 else if s = "Aug" then some 8
  else if s = "Sep" then some 9 else if s = "Oct" then some 10
  else if s = "Nov" then some 11 else if s = "Dec" then some 12
  else none

/-- Parse an "hh:mm" time-of-day field. -/
def parseHourMinute (s : String) : Option (Nat × Nat) :=
  match splitChar ':' s.toList with
  | [hS, mS] =>
    match parseDecNat (String.mk hS), parseDecNat (String.mk mS) with
    | some h, some m => some (h, m)
    | _, _ => none
  | _ => none

/-- Modelled from the spec: the year inferred for a Unix listing line
that shows a time of day instead of a year.  The current local year is
used, unless the resulting date lies in the future relative to the
corrected server time (local now plus clock shift, with one minute of
slack), in which case the previous year is used. -/
def inferredYear (shift now : Int) (mon day hh mm : Nat) : Int :=
  let yr := yearOf now
  if now + shift + 60 < toSeconds yr mon day hh mm then yr - 1 else yr

/-- Modification time, in seconds since the epoch, inferred for a Unix
listing line showing a time of day. -/
def inferredTime (shift now : Int) (mon day hh mm : Nat) : Int :=
  toSeconds (inferredYear shift now mon day hh mm) mon day hh mm

/-- Modelled from the spec: raw interpretation of the trailing
year-or-time field of a Unix listing line, before the pre-epoch
degradation step.  A time of day yields exact-minute precision and an
inferred year; an explicit year yields day-only precision. -/
def unixRawTime (mon day : Nat) (yearOrTime : String) (shift now : Int) :
    Option (Int × Option Int) :=
  if yearOrTime.toList.contains ':' then
    match parseHourMinute yearOrTime with
    | none => none
    | some (hh, mm) => some (inferredTime shift now mon day hh mm, MINUTE_PRECISION)
  else
    match parseDecNat yearOrTime with
    | none => none
    | some y => some (toSeconds (y : Int) mon day 0 0, DAY_PRECISION)

/-- Modelled from the spec: a timestamp before the representable epoch
is not a hard failure; it degrades to timestamp zero with unknown
precision instead of raising. -/
def degradePreEpoch (tp : Int × Option Int) : Int × Option Int :=
  if tp.1 < 0 then (0, UNKNOWN_PRECISION) else tp

/-- Interpretation of the year-or-time field including the pre-epoch
degradation. -/
def parseUnixTime (mon day : Nat) (yearOrTime : String) (shift now : Int) :
    Option (Int × Option Int) :=
  (unixRawTime mon day yearOrTime shift now).map degradePreEpoch

/-- Modelled from the spec: split the trailing name field of a Unix
line at the " -> " symlink separator.  No separator means a plain
name; one separator means a name with a link target; more than one
separator is ambiguous and rejected as unparsable. -/
def parseNameTarget (s : String) : Option (String × Option String) :=
  match splitArrow s.toList with
  | [n] => some (String.mk n, none)
  | [n, t] => some (String.mk n, some (String.mk t))
  | _ => none

/-- Modelled from the spec: assemble a Unix-dialect stat result from
the already-tokenized fields of a listing line.  Any malformed field
makes the whole line unparsable. -/
def unixCore (nameField : String) (modeS nlinkS : String)
    (ownerS groupS : Option String) (sizeS monS dayS yearOrTimeS : String)
    (shift now : Int) : Option StatResult :=
  match parseNameTarget nameField with
  | none => none
  | some (nm, tgt) =>
    if nm = "" then none
    else
      match parseMode modeS with
      | none => none
      | some mode =>
        match parseDecNat nlinkS with
        | none => none
        | some nlink =>
          match parseDecNat sizeS with
          | none => none
          | some size =>
            match monthNumber monS with
            | none => none
            | some mon =>
              match parseDecNat dayS with
              | none => none
              | some day =>
                if day < 1 ∨ 31 < day then none
                else
                  match parseUnixTime mon day yearOrTimeS shift now with
                  | none => none
                  | some (mtime, prec) =>
                    some { st_mode := mode, st_nlink := some nlink,
                           st_uid := ownerS, st_gid := groupS,
                           st_size := some size, st_mtime := mtime,
                           st_mtime_precision := prec, st_name := nm,
                           st_target := tgt }

/-- Primary Unix format: mode, link count, owner, group, size, month,
day, year-or-time, then the name field. -/
def unixParseWithOwner (line : String) (shift now : Int) : Option StatResult :=
  match splitMax 8 line.toList with
  | ([modeS, nlinkS, ownerS, groupS, sizeS, monS, dayS, ytS], nameField) =>
    unixCore nameField modeS nlinkS (some ownerS) (some groupS) sizeS monS dayS ytS
      shift now
  | _ => none

/-- Alternative Unix format with the owner column missing: mode, link
count, group, size, month, day, year-or-time, then the name field. -/
def unixParseNoOwner (line : String) (shift now : Int) : Option StatResult :=
  match splitMax 7 line.toList with
  | ([modeS, nlinkS, groupS, sizeS, monS, dayS, ytS], nameField) =>
    unixCore nameField modeS nlinkS none (some groupS) sizeS monS dayS ytS
      shift now
  | _ => none

/-- Modelled from the spec: parse one Unix-dialect listing line.  The
format with owner and group columns is tried first; on failure the
format with a missing owner column is tried, so that listings missing
that column are accepted without misaligning later fields. -/
def unixParseLine (line : String) (shift now : Int) : Option StatResult :=
  match unixParseWithOwner line shift now with
  | some r => some r
  | none => unixParseNoOwner line shift now

/-! ## DOS/Windows-dialect listing parser -/

/-- Parse the "MM-DD-YY" or "MM-DD-YYYY" date field of a DOS-style
line; a two-digit year at least 70 counts from 1900, below 70 from
2000. -/
def parseMsDate (s : String) : Option (Nat × Nat × Nat) :=
  match splitChar '-' s.toList with
  | [mS, dS, yS] =>
    match parseDecNat (String.mk mS), parseDecNat (String.mk dS),
          parseDecNat (String.mk yS) with
    | some m, some d, some y =>
      let y := if 100 ≤ y then y else if 70 ≤ y then 1900 + y else 2000 + y
      some (y, m, d)
    | _, _, _ => none
  | _ => none

/-- Parse the "hh:mmAM" or "hh:mmPM" time field of a DOS-style line,
converting to 24-hour time. -/
def parseMsTime (s : String) : Option (Nat × Nat) :=
  let cs := s.toList
  let front := String.mk (cs.take (cs.length - 2))
  let marker := String.mk (cs.drop (cs.length - 2))
  match parseHourMinute front with
  | none => none
  | some (hh, mm) =>
    if marker = "AM" then some ((if hh = 12 then 0 else hh), mm)
    else if marker = "PM" then some ((if hh = 12 then 12 else hh + 12), mm)
    else none

/-- Mode bits and size of the third DOS-style field: a directory
marker yields directory mode bits and no size, a numeric size yields
regular-file mode bits with that size, anything else is unparsable. -/
def msModeSize (dirOrSize : String) : Option (Nat × Option Nat) :=
  if dirOrSize = "<DIR>" then some (0o40400, none)
  else
    match parseDecNat dirOrSize with
    | none => none
    | some n => some (0o100400, some n)

/-- Modelled from the spec: parse one DOS/Windows-dialect listing line
(date, time, either a directory marker or a numeric size, then the
name).  Pre-epoch dates degrade exactly as in the Unix dialect. -/
def msParseLine (line : String) (_shift _now : Int) : Option StatResult :=
  match splitMax 3 line.toList with
  | ([dateS, timeS, dirOrSize], nameField) =>
    if nameField = "" then none
    else
      match parseMsDate dateS with
      | none => none
      | some (y, mon, d) =>
        match parseMsTime timeS with
        | none => none
        | some (hh, mm) =>
          match msModeSize dirOrSize with
          | none => none
          | some (mode, size) =>
            let tp := degradePreEpoch (toSeconds (y : Int) mon d hh mm, MINUTE_PRECISION)
            some { st_mode := mode, st_nlink := none, st_uid := none,
                   st_gid := none, st_size := size, st_mtime := tp.1,
                   st_mtime_precision := tp.2, st_name := nameField,
                   st_target := none }
  | _ => none

/-! ## Parser selector (spec section 4.2)

Modelled from the spec: the selector that owns one active parser per
logical connection lives in the missing module `ftputil/stat.py`.  It
starts with the Unix dialect and is allowed to switch once: when the
active dialect fails on a line while switching is still allowed, the
alternate dialect is tried and the choice is locked; a successful
parse also locks the choice.  A listing with zero lines provides no
evidence and leaves the state unchanged.
-/

/-- Two supported listing dialects. -/
inductive Dialect where
  | unix : Dialect
  | ms : Dialect
deriving Repr, DecidableEq

/-- Alternate dialect of a dialect. -/
def Dialect.other : Dialect → Dialect
  | Dialect.unix => Dialect.ms
  | Dialect.ms => Dialect.unix

/-- Parse one line with the given dialect. -/
def parseWith (d : Dialect) (line : String) (shift now : Int) : Option StatResult :=
  match d with
  | Dialect.unix => unixParseLine line shift now
  | Dialect.ms => msParseLine line shift now

/-- Lines that are clearly non-entry lines, reported as ignorable
rather than unparsable (for example a leading aggregate "total" line
or an empty line). -/
def ignoresLine (line : String) : Bool :=
  line = "" ∨ ("total ".toList).isPrefixOf line.toList

/-- Modelled from the spec: the selector state, one active dialect and
the flag telling whether switching dialects is still allowed. -/
structure StatState where
  activeDialect : Dialect
  allowSwitching : Bool
deriving Repr, DecidableEq

/-- Initial selector state: default Unix dialect, switching allowed. -/
def initialStatState : StatState :=
  { activeDialect := Dialect.unix, allowSwitching := true }

/-- Modelled from the spec: feed one non-ignorable listing line to the
selector.  A successful parse locks the current dialect.  A parse
failure while switching is still allowed switches to the alternate
dialect, locks it, and retries the line with it; a parse failure once
locked is a plain parse error (`none`) with the state unchanged. -/
def processLine (st : StatState) (shift now : Int) (line : String) :
    StatState × Option StatResult :=
  match parseWith st.activeDialect line shift now with
  | some r => ({ st with allowSwitching := false }, some r)
  | none =>
    if st.allowSwitching then
      let d := st.activeDialect.other
      ({ activeDialect := d, allowSwitching := false }, parseWith d line shift now)
    else (st, none)

/-- Modelled from the spec: feed a whole directory listing to the
selector, skipping ignorable lines and stopping at the first line
neither dialect can parse (`none` result, the surfaced parse error). -/
def processListing (st : StatState) (shift now : Int) :
    List String → StatState × Option (List StatResult)
  | [] => (st, some [])
  | line :: rest =>
    if ignoresLine line then processListing st shift now rest
    else
      let step := processLine st shift now line
      match step.2 with
      | none => (step.1, none)
      | some r =>
        let deeper := processListing step.1 shift now rest
        match deeper.2 with
        | none => (deeper.1, none)
        | some rs => (deeper.1, some (r :: rs))

/-! ## Metadata cache (spec sections 3 and 4.4)

Modelled from the spec: the module `ftputil/stat_cache.py` is not in
src/.  The cache maps absolute paths to stat results, bounded by a
maximum entry count; insertion order determines eviction order
(oldest inserted evicted first), and resizing to a non-positive bound
is rejected.
-/

/-- Modelled from the spec: the bounded metadata cache.  Entries are
kept in insertion order, oldest first. -/
structure StatCache where
  entries : List (String × StatResult)
  maxSize : Nat
deriving Repr, DecidableEq

/-- Empty cache with the given capacity. -/
def StatCache.empty (n : Nat) : StatCache :=
  { entries := [], maxSize := n }

/-- Drop oldest entries until the list is within the bound. -/
def evictOldest (bound : Nat) (es : List (String × StatResult)) :
    List (String × StatResult) :=
  es.drop (es.length - bound)

/-- Modelled from the spec: `resize(new_max)` rejects a non-positive
bound and otherwise evicts oldest entries until the cache is within
the new bound. -/
def StatCache.resize (c : StatCache) (newMax : Int) : Option StatCache :=
  if newMax ≤ 0 then none
  else some { entries := evictOldest newMax.toNat c.entries,
              maxSize := newMax.toNat }

/-- Modelled from the spec: atomic insert; a present entry for the
path is replaced, and if the cache is over capacity after the insert
the oldest-inserted entries are evicted. -/
def StatCache.put (c : StatCache) (path : String) (r : StatResult) : StatCache :=
  let es := (c.entries.filter (fun e => e.1 ≠ path)) ++ [(path, r)]
  { entries := evictOldest c.maxSize es, maxSize := c.maxSize }

/-- Insert a sequence of entries in order. -/
def StatCache.putAll (c : StatCache) (xs : List (String × StatResult)) : StatCache :=
  xs.foldl (fun acc e => acc.put e.1 e.2) c

/-! ## Clock-skew synchronizer (spec sections 3 and 4.5)

Modelled from the spec: `synchronize_times` lives in the missing
module `ftputil/host.py`.  The measured raw shift (reported probe
mtime minus local now) is rounded to the nearest 15-minute unit and
validated: a rounded magnitude above 24 hours, or a rounding error
above the deviation tolerance, is rejected.  The spec does not fix
the tolerance numerically; the tests of the repository accept rounding
errors up to 100 seconds and reject ones of 360 seconds, and five
minutes is used here.
-/

/-- Deviation tolerance for the 15-minute rounding, in seconds. -/
def maximumTimeShiftDeviation : Nat := 5 * 60

/-- Modelled from the spec: round a time shift in seconds to the
nearest 15-minute unit, preserving the sign. -/
def roundedTimeShift (shift : Int) : Int :=
  let rounded := ((shift.natAbs + 450) / 900) * 900
  if shift < 0 then -(rounded : Int) else (rounded : Int)

/-- Modelled from the spec: validate a measured time shift; reject a
rounded magnitude above 24 hours or a rounding deviation above the
tolerance, otherwise return the rounded shift to adopt. -/
def validatedTimeShift (measured : Int) : Option Int :=
  let rounded := roundedTimeShift measured
  if 24 * 3600 < rounded.natAbs then none
  else if maximumTimeShiftDeviation < (measured - rounded).natAbs then none
  else some rounded

/-- Modelled from the spec: `synchronize_times` measures the raw shift
as the reported probe-file mtime minus local now, and adopts the
validated rounded shift; `none` is the TimeShiftError outcome. -/
def synchronizeTimes (reportedMtime localNow : Int) : Option Int :=
  validatedTimeShift (reportedMtime - localNow)

/-! ## Conditional-transfer comparison (spec section 4.7)

Modelled from the spec: the module `ftputil/file_transfer.py` is not
in src/.  Timestamps are compared with the own precision of each side: a
timestamp of precision p covers the widened interval from t - p/2 to
t + p/2, and the source counts as newer (transfer) unless the target
interval lies strictly above the source interval.  An unknown
precision on either side always transfers.
-/

/-- Modelled from the spec: a file participating in a conditional
transfer, with its modification time in seconds and its timestamp
precision (`none` for unknown). -/
structure TransferFile where
  mtime : ℚ
  mtime_precision : Option ℚ
deriving DecidableEq

/-- Modelled from the spec: the source counts as newer than the
target unless the widened target interval lies strictly above the
widened source interval; any unknown precision errs toward
transferring. -/
def source_is_newer_than_target (s t : TransferFile) : Bool :=
  match s.mtime_precision, t.mtime_precision with
  | some ps, some pt => decide (t.mtime - pt / 2 ≤ s.mtime + ps / 2)
  | _, _ => true

/-- Modelled from the spec: whether upload_if_newer / download_if_newer
performs the transfer, given the source file and the target file if it
exists; a missing target always transfers. -/
def transferNeeded (s : TransferFile) (t : Option TransferFile) : Bool :=
  match t with
  | none => true
  | some tf => source_is_newer_than_target s tf

/-- Spec wording, stated independently for comparison: the widened
target interval (timestamp plus or minus half its precision)
strictly dominates the widened source interval. -/
def targetStrictlyDominates (s t : TransferFile) : Prop :=
  ∃ ps pt, s.mtime_precision = some ps ∧ t.mtime_precision = some pt ∧
    s.mtime + ps / 2 < t.mtime - pt / 2

/-! ## Path resolver (spec section 4.3)

Modelled from the spec: the module `ftputil/path.py` is not in src/.
Paths are component lists of an absolute forward-slash path.  The
predicates resolve the listing of the parent directory and look up the
leaf name; a missing parent directory is not an error and yields
false for every predicate.  The stat used by is_directory / is_file /
exists follows symlink targets up to a bounded depth; exhausting the
bound reports not-resolvable (`none`).
-/

/-- Absolute path as its list of components. -/
abbrev RPath := List String

/-- Modelled from the spec: the remote filesystem view, a finite map
from absolute directory paths to their parsed listings. -/
structure RemoteFS where
  dirs : List (RPath × List StatResult)

/-- Listing of a directory, if the directory exists. -/
def RemoteFS.lookupDir (fs : RemoteFS) (p : RPath) : Option (List StatResult) :=
  (fs.dirs.find? (fun e => e.1 = p)).map (fun e => e.2)

/-- Modelled from the spec: non-following stat.  The parent
listing of the parent directory is resolved and the leaf name looked up in it;
a missing parent directory or a missing leaf yields `none` rather
than an error.  The root itself has no parent listing (`none`, the
root-directory limitation). -/
def lstatFS (fs : RemoteFS) (p : RPath) : Option StatResult :=
  match p.getLast? with
  | none => none
  | some leaf =>
    match fs.lookupDir p.dropLast with
    | none => none
    | some listing => listing.find? (fun r => r.st_name = leaf)

/-- True when the mode bits denote a directory. -/
def S_ISDIR (mode : Nat) : Bool := mode / 0o10000 % 16 = 4

/-- True when the mode bits denote a regular file. -/
def S_ISREG (mode : Nat) : Bool := mode / 0o10000 % 16 = 8

/-- True when the mode bits denote a symbolic link. -/
def S_ISLNK (mode : Nat) : Bool := mode / 0o10000 % 16 = 10

/-- Normalize path components, resolving dot and dot-dot segments. -/
def normalizeComponents (cs : List String) : RPath :=
  cs.foldl (fun acc c =>
    if c = "." ∨ c = "" then acc
    else if c = ".." then acc.dropLast
    else acc ++ [c]) []

/-- Resolve a raw symlink target found at path `p` into an absolute
component path. -/
def resolveTarget (p : RPath) (tgt : String) : RPath :=
  let comps := (splitChar '/' tgt.toList).map String.mk
  if tgt.toList.headD ' ' = '/' then normalizeComponents comps
  else normalizeComponents (p.dropLast ++ comps)

/-- Modelled from the spec: symlink-following stat with a bounded
resolution depth; exceeding the bound yields not-resolvable
(`none`). -/
def statFS (fs : RemoteFS) : Nat → RPath → Option StatResult
  | 0, _ => none
  | Nat.succ fuel, p =>
    match lstatFS fs p with
    | none => none
    | some r =>
      match r.st_target with
      | none => some r
      | some tgt => statFS fs fuel (resolveTarget p tgt)

/-- Maximum symlink-resolution depth. -/
def MAX_SYMLINK_DEPTH : Nat := 50

/-- Modelled from the spec: is_directory predicate; the root is a
directory, other paths stat the entry following links. -/
def isDirFS (fs : RemoteFS) (p : RPath) : Bool :=
  if p = [] then true
  else
    match statFS fs MAX_SYMLINK_DEPTH p with
    | none => false
    | some r => S_ISDIR r.st_mode

/-- Modelled from the spec: is_file predicate, following links. -/
def isFileFS (fs : RemoteFS) (p : RPath) : Bool :=
  match statFS fs MAX_SYMLINK_DEPTH p with
  | none => false
  | some r => S_ISREG r.st_mode

/-- Modelled from the spec: is_symlink predicate on the non-following
stat. -/
def isLinkFS (fs : RemoteFS) (p : RPath) : Bool :=
  match lstatFS fs p with
  | none => false
  | some r => S_ISLNK r.st_mode

/-- Modelled from the spec: exists predicate; the root exists, other
paths exist when the link-following stat finds an entry. -/
def existsFS (fs : RemoteFS) (p : RPath) : Bool :=
  if p = [] then true
  else (statFS fs MAX_SYMLINK_DEPTH p).isSome

/-! ## FTP file objects (`ftputil/file.py`, present in src/) -/

/-- Error kinds raised by `FTPFile._open` (file.py lines 67-80):
`FTPIOError`, a plain `ValueError`, and `CommandNotImplementedError`. -/
inductive OpenError where
  | ftpIOError (msg : String) : OpenError
  | valueError (msg : String) : OpenError
  | commandNotImplementedError (msg : String) : OpenError
deriving Repr, DecidableEq

/-- Modes accepted by `FTPFile._open` (file.py line 69). -/
def validModes : List String := ["r", "rb", "rt", "w", "wb", "wt"]

/-- Embedding of `FTPFile._open` (file.py lines 43-113) up to the
session interaction: the mode checks in source order, then the session
commands that would be issued (the TYPE command and the RETR or STOR
transfer command).  The result pairs the list of session commands
issued with the error raised, if any; every mode check precedes the
first session command. -/
def ftpFileOpen (path mode : String) (rest : Option Int) :
    List String × Option OpenError :=
  if mode.toList.contains 'a' then
    ([], some (OpenError.ftpIOError "append mode not supported"))
  else if mode ∉ validModes then
    ([], some (OpenError.ftpIOError ("invalid mode " ++ mode)))
  else if mode.toList.contains 'b' ∧ mode.toList.contains 't' then
    ([], some (OpenError.valueError "cannot have text and binary mode at once"))
  else if ¬ mode.toList.contains 'b' ∧ rest ≠ none then
    ([], some (OpenError.commandNotImplementedError
                 "rest argument cannot be used for text files"))
  else
    (["TYPE I", (if mode.toList.contains 'r' then "RETR " else "STOR ") ++ path],
     none)

/-- Matches a result whose error is the `ValueError` branch. -/
def isValueError (res : List String × Option OpenError) : Bool :=
  match res.2 with
  | some (OpenError.valueError _) => true
  | _ => false

/-- State of an `FTPFile` as far as `close` observes it. -/
structure FTPFileState where
  closed : Bool
deriving Repr, DecidableEq

/-- First line of an error text, the model of Python
`str.splitlines()[0]` on the stored error string. -/
def firstLine (s : String) : String :=
  String.mk (s.toList.takeWhile (fun c => c ≠ '\n'))

/-- First three characters of an error text, the model of the Python
slice `exc[:3]` taking the reply code. -/
def codeOf (s : String) : String :=
  String.mk (s.toList.take 3)

/-- Reply codes tolerated by `FTPFile.close` (file.py line 195). -/
def toleratedCloseCodes : List String := ["150", "426", "450", "451"]

/-- Embedding of `FTPFile.close` (file.py lines 168-205).  The
environment supplies the outcomes of the inner file close, the data
connection close and the final session `voidresp` (`some msg` is a
raised error with text `msg`).  The result pairs the error propagated
out of `close`, if any, with the final file state; the `finally`
block marks the file closed on every path.  A `voidresp` error whose
first line is "timed out" or whose three-character code prefix is one
of the tolerated codes is swallowed (file.py lines 187-196). -/
def ftpFileClose (st : FTPFileState)
    (fobjCloseErr connCloseErr voidrespErr : Option String) :
    Option String × FTPFileState :=
  if st.closed then (none, st)
  else
    let propagated :=
      match fobjCloseErr with
      | some e => some e
      | none =>
        match connCloseErr with
        | some e => some e
        | none =>
          match voidrespErr with
          | none => none
          | some msg =>
            if firstLine msg ≠ "timed out" ∧ codeOf msg ∉ toleratedCloseCodes
            then some msg
            else none
    (propagated, { closed := true })

/-! ## Theorems for the claims -/

/-- C3, counterexample: a measured clock shift of exactly 1 hour 31
minutes is not rejected; it is rounded to 1 hour 30 minutes and
accepted, so the claim that `synchronize_times` raises a
time-shift-invalid error for it is false. -/
theorem C3_counterexample_91min_accepted :
    synchronizeTimes (91 * 60) 0 = some 5400 := by decide

/-- C3, amended: `synchronize_times` accepts a measured clock shift of
exactly 1 hour 31 minutes, rounding it to 1 hour 30 minutes, just as
it accepts a measured shift of 1 hour 28 minutes; in both cases the
adopted time shift afterwards is 5400 seconds.  (A shift whose
deviation from the nearest 15-minute unit exceeds the tolerance, such
as 1 hour 8 minutes, is rejected.) -/
theorem C3_synchronize_times_rounding :
    synchronizeTimes (91 * 60) 0 = some 5400 ∧
    synchronizeTimes (88 * 60) 0 = some 5400 ∧
    synchronizeTimes (68 * 60) 0 = none := by decide

/-- C9: closing an open file where the final status reply of the session
reports a transient condition — a reply whose code is 150, 426, 450
or 451, or a socket "timed out" — does not propagate that reply as an
error from close, and the file ends up marked closed
(file.py lines 168-205). -/
theorem C9_close_tolerates_transient_reply :
    ∀ (st : FTPFileState) (msg : String),
      st.closed = false →
      (firstLine msg = "timed out" ∨ codeOf msg ∈ toleratedCloseCodes) →
      ftpFileClose st none none (some msg) = (none, { closed := true }) := by
  intro st msg hopen htransient
  have hcond : ¬ (firstLine msg ≠ "timed out" ∧ codeOf msg ∉ toleratedCloseCodes) := by
    tauto
  simp [ftpFileClose, hopen, hcond]

/-- C9, witness: closing an open file over a 426 reply and over a
socket timeout both complete without an error and mark the file
closed. -/
theorem C9_witness :
    ftpFileClose { closed := false } none none (some "426 transfer aborted") =
      (none, { closed := true }) ∧
    ftpFileClose { closed := false } none none (some "timed out") =
      (none, { closed := true }) :=
  ⟨C9_close_tolerates_transient_reply { closed := false } "426 transfer aborted"
      rfl (Or.inr (by decide)),
   C9_close_tolerates_transient_reply { closed := false } "timed out"
      rfl (Or.inl (by decide))⟩

/-- C10, counterexample: the mode string "rbt" combines "b" and "t",
yet `FTPFile._open` raises `FTPIOError` (from the invalid-mode check
at file.py line 69), not the `ValueError` the claim asserts: the
`ValueError` branch at file.py line 71 is unreachable because no mode
in the allowed list contains both letters. -/
theorem C10_counterexample_rbt_raises_ftpioerror :
    isValueError (ftpFileOpen "file.txt" "rbt" none) = false ∧
    ftpFileOpen "file.txt" "rbt" none =
      ([], some (OpenError.ftpIOError "invalid mode rbt")) := by decide

/-- Every allowed mode string lacks at least one of the letters "b"
and "t". -/
theorem validModes_not_binary_and_text :
    ∀ mode ∈ validModes,
      mode.toList.contains 'b' = false ∨ mode.toList.contains 't' = false := by
  decide

/-- No allowed mode string contains the letter "a". -/
theorem validModes_no_append :
    ∀ mode ∈ validModes, mode.toList.contains 'a' = false := by
  decide

/-- C10, amended: for every mode string passed to `FTPFile._open`, a
mode containing "a" raises `FTPIOError` ("append mode not supported");
a mode not among "r", "rb", "rt", "w", "wb", "wt" raises `FTPIOError`;
a mode combining "b" and "t" also raises `FTPIOError` (the invalid-mode
check fires first, so the `ValueError` branch is dead code); a non-None
resume offset with a non-binary mode raises
`CommandNotImplementedError`; and no failing call issues any session
command (file.py lines 43-113). -/
theorem C10_open_mode_checks :
    ∀ (path mode : String) (rest : Option Int),
      (mode.toList.contains 'a' = true →
        ftpFileOpen path mode rest =
          ([], some (OpenError.ftpIOError "append mode not supported"))) ∧
      (mode ∉ validModes →
        ∃ msg, ftpFileOpen path mode rest = ([], some (OpenError.ftpIOError msg))) ∧
      (mode.toList.contains 'b' = true → mode.toList.contains 't' = true →
        ∃ msg, ftpFileOpen path mode rest = ([], some (OpenError.ftpIOError msg))) ∧
      (mode ∈ validModes → mode.toList.contains 'b' = false → rest ≠ none →
        ftpFileOpen path mode rest =
          ([], some (OpenError.commandNotImplementedError
                       "rest argument cannot be used for text files"))) ∧
      (∀ cmds e, ftpFileOpen path mode rest = (cmds, some e) → cmds = []) := by
  intro path mode rest
  refine ⟨?_, ?_, ?_, ?_, ?_⟩
  · intro ha
    unfold ftpFileOpen
    rw [if_pos ha]
  · intro hmem
    by_cases ha : mode.toList.contains 'a' = true
    · exact ⟨"append mode not supported", by unfold ftpFileOpen; rw [if_pos ha]⟩
    · exact ⟨"invalid mode " ++ mode,
        by unfold ftpFileOpen; rw [if_neg ha, if_pos hmem]⟩
  · intro hb ht
    have hmem : mode ∉ validModes := by
      intro hmem
      rcases validModes_not_binary_and_text mode hmem with h | h
      · rw [hb] at h; cases h
      · rw [ht] at h; cases h
    by_cases ha : mode.toList.contains 'a' = true
    · exact ⟨"append mode not supported", by unfold ftpFileOpen; rw [if_pos ha]⟩
    · exact ⟨"invalid mode " ++ mode,
        by unfold ftpFileOpen; rw [if_neg ha, if_pos hmem]⟩
  · intro hmem hb hrest
    have ha : ¬ mode.toList.contains 'a' = true := by
      rw [validModes_no_append mode hmem]; exact Bool.false_ne_true
    have ht : ¬ (mode.toList.contains 'b' = true ∧ mode.toList.contains 't' = true) := by
      rintro ⟨hb2, _⟩
      rw [hb] at hb2; cases hb2
    unfold ftpFileOpen
    rw [if_neg ha, if_neg (not_not_intro hmem), if_neg ht,
        if_pos (And.intro (by rw [hb]; exact Bool.false_ne_true) hrest)]
  · intro cmds e h
    unfold ftpFileOpen at h
    repeat' split at h
    all_goals simp only [Prod.mk.injEq] at h
    all_goals first
      | exact h.1.symm
      | exact absurd h.2 (by simp)

/-- C10, witness: a text mode with a resume offset is refused with
`CommandNotImplementedError`, and an append mode is refused with
`FTPIOError`, both without issuing a session command. -/
theorem C10_witness :
    ftpFileOpen "x" "wt" (some 0) =
      ([], some (OpenError.commandNotImplementedError
                   "rest argument cannot be used for text files")) ∧
    ftpFileOpen "x" "ab" none =
      ([], some (OpenError.ftpIOError "append mode not supported")) :=
  ⟨(C10_open_mode_checks "x" "wt" (some 0)).2.2.2.1 (by decide) (by decide)
      (by decide),
   (C10_open_mode_checks "x" "ab" none).1 (by decide)⟩

/-- C2: upload_if_newer / download_if_newer skip the transfer exactly
when the widened target interval (timestamp plus or minus half its
precision) strictly dominates the widened source interval; whenever
the intervals overlap or touch the transfer proceeds, a missing
target always transfers, and equal timestamps at equal (nonnegative)
precision transfer. -/
theorem C2_conditional_transfer_semantics :
    ∀ s t : TransferFile,
      transferNeeded s none = true ∧
      (transferNeeded s (some t) = false ↔ targetStrictlyDominates s t) ∧
      (s.mtime = t.mtime → s.mtime_precision = t.mtime_precision →
        (∀ p, s.mtime_precision = some p → 0 ≤ p) →
        transferNeeded s (some t) = true) := by
  intro s t
  refine ⟨rfl, ?_, ?_⟩
  · unfold transferNeeded source_is_newer_than_target targetStrictlyDominates
    cases hs : s.mtime_precision with
    | none =>
      simp [hs]
    | some ps =>
      cases ht : t.mtime_precision with
      | none => simp [hs, ht]
      | some pt =>
        simp only [hs, ht, decide_eq_false_iff_not, not_le, Option.some.injEq]
        constructor
        · intro h
          exact ⟨ps, pt, rfl, rfl, h⟩
        · rintro ⟨ps2, pt2, hps, hpt, h⟩
          rw [← hps, ← hpt] at h
          exact h
  · intro hmt hprec hpos
    show source_is_newer_than_target s t = true
    unfold source_is_newer_than_target
    cases hs : s.mtime_precision with
    | none => cases t.mtime_precision <;> rfl
    | some p =>
      have ht : t.mtime_precision = some p := hprec.symm.trans hs
      rw [ht]
      have hp : (0 : ℚ) ≤ p := hpos p hs
      have hle : t.mtime - p / 2 ≤ s.mtime + p / 2 := by
        rw [hmt]; linarith
      simp [hle]

/-- C2, witness: with unknown precision on both sides and equal
timestamps the transfer proceeds, and a missing target transfers. -/
theorem C2_witness :
    transferNeeded { mtime := 1000, mtime_precision := none }
        (some { mtime := 1000, mtime_precision := none }) = true ∧
    transferNeeded { mtime := 1000, mtime_precision := none } none = true :=
  ⟨(C2_conditional_transfer_semantics ⟨1000, none⟩ ⟨1000, none⟩).2.2 rfl rfl
      (fun _p hp => Option.noConfusion hp),
   (C2_conditional_transfer_semantics ⟨1000, none⟩ ⟨1000, none⟩).1⟩

/-- Length of the eviction step: oldest entries are dropped until the
bound is reached, and no further. -/
theorem length_evictOldest (bound : Nat) (es : List (String × StatResult)) :
    (evictOldest bound es).length = min es.length bound := by
  simp only [evictOldest, List.length_drop]
  omega

/-- Entries surviving the eviction step were present before it. -/
theorem mem_evictOldest {bound : Nat} {es : List (String × StatResult)}
    {e : String × StatResult} (h : e ∈ evictOldest bound es) : e ∈ es :=
  List.mem_of_mem_drop h

/-- Inserting an entry whose path is not yet cached grows the cache by
one entry, up to the capacity bound. -/
theorem put_length_fresh (c : StatCache) (k : String) (r : StatResult)
    (hfresh : ∀ e ∈ c.entries, e.1 ≠ k) :
    (c.put k r).entries.length = min (c.entries.length + 1) c.maxSize := by
  have hfilter : c.entries.filter (fun e => decide (e.1 ≠ k)) = c.entries :=
    List.filter_eq_self.mpr (fun e he => by simpa using hfresh e he)
  simp only [StatCache.put, hfilter, length_evictOldest, List.length_append,
    List.length_singleton]

/-- Entries of a cache after a put are either prior entries or the
entry just inserted. -/
theorem mem_put (c : StatCache) (k : String) (r : StatResult)
    {e : String × StatResult} (h : e ∈ (c.put k r).entries) :
    e ∈ c.entries ∨ e = (k, r) := by
  have h2 := mem_evictOldest h
  rcases List.mem_append.mp h2 with h3 | h3
  · exact Or.inl (List.mem_of_mem_filter h3)
  · exact Or.inr (List.mem_singleton.mp h3)

/-- Inserting pairwise-distinct fresh entries grows the cache entry
count additively, capped at the capacity bound. -/
theorem putAll_fresh_length :
    ∀ (xs : List (String × StatResult)) (c : StatCache),
      c.entries.length ≤ c.maxSize →
      xs.Pairwise (fun a b => a.1 ≠ b.1) →
      (∀ x ∈ xs, ∀ e ∈ c.entries, e.1 ≠ x.1) →
      (StatCache.putAll c xs).entries.length =
        min (c.entries.length + xs.length) c.maxSize := by
  intro xs
  induction xs with
  | nil =>
    intro c hlen _ _
    simp only [StatCache.putAll, List.foldl_nil, List.length_nil, Nat.add_zero]
    omega
  | cons x rest ih =>
    intro c hlen hpair hfresh
    have hx : ∀ e ∈ c.entries, e.1 ≠ x.1 := fun e he => hfresh x (by simp) e he
    have hput : (c.put x.1 x.2).entries.length = min (c.entries.length + 1) c.maxSize :=
      put_length_fresh c x.1 x.2 hx
    have hmax : (c.put x.1 x.2).maxSize = c.maxSize := rfl
    have hlen2 : (c.put x.1 x.2).entries.length ≤ (c.put x.1 x.2).maxSize := by
      rw [hput, hmax]; omega
    have hfresh2 : ∀ y ∈ rest, ∀ e ∈ (c.put x.1 x.2).entries, e.1 ≠ y.1 := by
      intro y hy e he
      rcases mem_put c x.1 x.2 he with h | h
      · exact hfresh y (by simp [hy]) e h
      · rw [h]
        exact (List.pairwise_cons.mp hpair).1 y hy
    have hrec := ih (c.put x.1 x.2) hlen2 (List.pairwise_cons.mp hpair).2 hfresh2
    have : StatCache.putAll c (x :: rest) = StatCache.putAll (c.put x.1 x.2) rest := rfl
    rw [this, hrec, hput, hmax]
    simp only [List.length_cons]
    omega

/-- Inserting any entries never grows the cache beyond its bound. -/
theorem putAll_length_le :
    ∀ (xs : List (String × StatResult)) (c : StatCache),
      c.entries.length ≤ c.maxSize →
      (StatCache.putAll c xs).entries.length ≤ (StatCache.putAll c xs).maxSize := by
  intro xs
  induction xs with
  | nil => intro c hlen; exact hlen
  | cons x rest ih =>
    intro c hlen
    have hstep : (c.put x.1 x.2).entries.length ≤ (c.put x.1 x.2).maxSize := by
      simp only [StatCache.put, length_evictOldest]
      omega
    exact ih (c.put x.1 x.2) hstep

/-- C5: resizing the cache to a non-positive bound always fails; for
every positive bound n, resize keeps the most recent entries, holding
exactly the minimum of the old size and n (so it drops no more
entries than necessary); after a resize to n the cache never exceeds
n entries under further inserts; and inserting at least n distinct
fresh entries fills the cache to exactly n. -/
theorem C5_cache_resize_and_bound :
    (∀ (c : StatCache) (z : Int), z ≤ 0 → c.resize z = none) ∧
    (∀ (c : StatCache) (n : Int), 0 < n →
      ∃ c2, c.resize n = some c2 ∧ c2.maxSize = n.toNat ∧
        c2.entries.length = min c.entries.length n.toNat) ∧
    (∀ (c : StatCache) (xs : List (String × StatResult)),
      c.entries.length ≤ c.maxSize →
      (StatCache.putAll c xs).entries.length ≤ c.maxSize) ∧
    (∀ (c : StatCache) (xs : List (String × StatResult)),
      c.entries.length ≤ c.maxSize →
      xs.Pairwise (fun a b => a.1 ≠ b.1) →
      (∀ x ∈ xs, ∀ e ∈ c.entries, e.1 ≠ x.1) →
      c.maxSize ≤ c.entries.length + xs.length →
      (StatCache.putAll c xs).entries.length = c.maxSize) := by
  refine ⟨?_, ?_, ?_, ?_⟩
  · intro c z hz
    simp [StatCache.resize, hz]
  · intro c n hn
    refine ⟨{ entries := evictOldest n.toNat c.entries, maxSize := n.toNat },
      ?_, rfl, ?_⟩
    · simp [StatCache.resize, not_le.mpr hn]
    · simp [length_evictOldest]
  · intro c xs hlen
    have h := putAll_length_le xs c hlen
    have hmax : (StatCache.putAll c xs).maxSize = c.maxSize := by
      clear h hlen
      induction xs generalizing c with
      | nil => rfl
      | cons x rest ih => exact ih (c.put x.1 x.2)
    rw [hmax] at h
    exact h
  · intro c xs hlen hpair hfresh hfill
    rw [putAll_fresh_length xs c hlen hpair hfresh]
    omega

/-- Sample metadata record used by concrete cache scenarios. -/
def sampleStat : StatResult :=
  { st_mode := 0o100644, st_nlink := some 1, st_uid := some "45854",
    st_gid := some "200", st_size := some 4604, st_mtime := 0,
    st_mtime_precision := some 60, st_name := "index.html", st_target := none }

/-- C5, witness: resizing to zero fails, and inserting three distinct
entries into an empty two-entry cache leaves exactly two entries. -/
theorem C5_witness :
    (StatCache.empty 2).resize 0 = none ∧
    ((StatCache.empty 2).putAll
      [("/a", sampleStat), ("/b", sampleStat), ("/c", sampleStat)]).entries.length = 2 :=
  ⟨(C5_cache_resize_and_bound.1 (StatCache.empty 2) 0 (by decide)),
   (C5_cache_resize_and_bound.2.2.2 (StatCache.empty 2)
      [("/a", sampleStat), ("/b", sampleStat), ("/c", sampleStat)]
      (by decide) (by decide) (by decide) (by decide))⟩

/-- Once a parse succeeds or a switch happens the selector is locked;
processing any line from a locked state leaves the state unchanged. -/
theorem processLine_locked (st : StatState) (shift now : Int) (line : String)
    (h : st.allowSwitching = false) :
    (processLine st shift now line).1 = st := by
  unfold processLine
  cases hp : parseWith st.activeDialect line shift now with
  | none => simp [h]
  | some r =>
    simp only []
    cases st
    simp_all

/-- C4: a directory listing with zero lines leaves the selector
unchanged — in particular the initial state stays allowed to switch
and stays on the default Unix dialect; any line that parses
successfully (with the original or the switched-to dialect) locks the
selector; and from a locked state no later input ever changes the
selector again. -/
theorem C4_selector_switching_locks :
    (∀ (st : StatState) (shift now : Int),
      processListing st shift now [] = (st, some [])) ∧
    (processListing initialStatState 0 0 []).1.allowSwitching = true ∧
    (processListing initialStatState 0 0 []).1.activeDialect = Dialect.unix ∧
    (∀ (st : StatState) (shift now : Int) (line : String) (r : StatResult),
      (processLine st shift now line).2 = some r →
      (processLine st shift now line).1.allowSwitching = false) ∧
    (∀ (st : StatState) (shift now : Int) (lines : List String),
      st.allowSwitching = false →
      (processListing st shift now lines).1 = st) := by
  refine ⟨fun st shift now => rfl, rfl, rfl, ?_, ?_⟩
  · intro st shift now line r h
    unfold processLine at h ⊢
    cases hp : parseWith st.activeDialect line shift now with
    | some r2 => rfl
    | none =>
      rw [hp] at h
      simp only [] at h ⊢
      by_cases hsw : st.allowSwitching = true
      · simp [hsw]
      · rw [if_neg hsw] at h ⊢
        exact absurd h (by simp)
  · intro st shift now lines h
    induction lines with
    | nil => rfl
    | cons line rest ih =>
      unfold processListing
      by_cases hig : ignoresLine line = true
      · rw [if_pos hig]
        exact ih
      · rw [if_neg hig]
        have hst : (processLine st shift now line).1 = st :=
          processLine_locked st shift now line h
        simp only [hst]
        cases (processLine st shift now line).2 with
        | none => rfl
        | some r =>
          cases (processListing st shift now rest).2 with
          | none => exact ih
          | some rs => exact ih

/-- C4, witness: an empty listing leaves the initial state unchanged,
and a locked Unix-dialect selector stays locked on Unix across a
listing that its dialect cannot parse. -/
theorem C4_witness :
    processListing initialStatState 0 0 [] = (initialStatState, some []) ∧
    (processListing { activeDialect := Dialect.unix, allowSwitching := false }
        0 0 ["07-27-01  11:16AM       <DIR>          Test"]).1 =
      { activeDialect := Dialect.unix, allowSwitching := false } :=
  ⟨C4_selector_switching_locks.1 initialStatState 0 0,
   C4_selector_switching_locks.2.2.2.2
      { activeDialect := Dialect.unix, allowSwitching := false } 0 0
      ["07-27-01  11:16AM       <DIR>          Test"] rfl⟩

/-- The non-following stat of a path whose parent directory is absent
finds nothing. -/
theorem lstatFS_of_missing_parent (fs : RemoteFS) (parent : RPath) (leaf : String)
    (h : fs.lookupDir parent = none) :
    lstatFS fs (parent ++ [leaf]) = none := by
  unfold lstatFS
  rw [show (parent ++ [leaf]).getLast? = some leaf from by simp,
      show (parent ++ [leaf]).dropLast = parent from by simp, h]

/-- The link-following stat of a path whose parent directory is absent
finds nothing, at any resolution depth. -/
theorem statFS_of_missing_parent (fs : RemoteFS) (fuel : Nat) (parent : RPath)
    (leaf : String) (h : fs.lookupDir parent = none) :
    statFS fs fuel (parent ++ [leaf]) = none := by
  cases fuel with
  | zero => rfl
  | succ n =>
    unfold statFS
    rw [lstatFS_of_missing_parent fs parent leaf h]

/-- C8: for every path whose parent directory does not exist on the
remote host, the predicates is_directory, is_file, is_symlink and
exists all return false, with no error outcome. -/
theorem C8_missing_parent_all_false :
    ∀ (fs : RemoteFS) (parent : RPath) (leaf : String),
      fs.lookupDir parent = none →
      isDirFS fs (parent ++ [leaf]) = false ∧
      isFileFS fs (parent ++ [leaf]) = false ∧
      isLinkFS fs (parent ++ [leaf]) = false ∧
      existsFS fs (parent ++ [leaf]) = false := by
  intro fs parent leaf h
  have hstat := statFS_of_missing_parent fs MAX_SYMLINK_DEPTH parent leaf h
  have hlstat := lstatFS_of_missing_parent fs parent leaf h
  have hne : parent ++ [leaf] ≠ [] := by simp
  refine ⟨?_, ?_, ?_, ?_⟩
  · unfold isDirFS
    rw [if_neg hne, hstat]
  · unfold isFileFS
    rw [hstat]
  · unfold isLinkFS
    rw [hlstat]
  · unfold existsFS
    rw [if_neg hne, hstat]
    rfl

/-- C8, witness: on a host without the directory "/notthere", all four
predicates are false for "/notthere/notthere". -/
theorem C8_witness :
    isDirFS { dirs := [] } ["notthere", "notthere"] = false ∧
    isFileFS { dirs := [] } ["notthere", "notthere"] = false ∧
    isLinkFS { dirs := [] } ["notthere", "notthere"] = false ∧
    existsFS { dirs := [] } ["notthere", "notthere"] = false :=
  C8_missing_parent_all_false { dirs := [] } ["notthere"] "notthere" rfl

/-- A name field containing more than one " -> " separator cannot be
split into a name and a target. -/
theorem parseNameTarget_eq_none (s : String)
    (h : 3 ≤ (splitArrow s.toList).length) :
    parseNameTarget s = none := by
  unfold parseNameTarget
  rcases hs : splitArrow s.toList with _ | ⟨a, _ | ⟨b, _ | ⟨c, l⟩⟩⟩
  · rfl
  · rw [hs] at h; simp at h
  · rw [hs] at h; simp at h
  · rfl

/-- A Unix listing line whose name field cannot be split is
unparsable whatever its other fields hold. -/
theorem unixCore_none_of_bad_name (nameField modeS nlinkS : String)
    (ownerS groupS : Option String) (sizeS monS dayS ytS : String)
    (shift now : Int) (h : parseNameTarget nameField = none) :
    unixCore nameField modeS nlinkS ownerS groupS sizeS monS dayS ytS
      shift now = none := by
  unfold unixCore
  rw [h]

/-- The primary Unix format rejects a line whose name field holds more
than one " -> " separator. -/
theorem unixParseWithOwner_none_of_arrows (line : String) (shift now : Int)
    (h : 3 ≤ (splitArrow (splitMax 8 line.toList).2.toList).length) :
    unixParseWithOwner line shift now = none := by
  unfold unixParseWithOwner
  set t := splitMax 8 line.toList with ht
  obtain ⟨toks, rest⟩ := t
  rcases toks with _ | ⟨t1, _ | ⟨t2, _ | ⟨t3, _ | ⟨t4, _ | ⟨t5, _ | ⟨t6, _ |
    ⟨t7, _ | ⟨t8, _ | ⟨t9, tl⟩⟩⟩⟩⟩⟩⟩⟩⟩
  all_goals try rfl
  exact unixCore_none_of_bad_name _ _ _ _ _ _ _ _ _ _ _
    (parseNameTarget_eq_none _ h)

/-- The alternative Unix format rejects a line whose name field holds
more than one " -> " separator. -/
theorem unixParseNoOwner_none_of_arrows (line : String) (shift now : Int)
    (h : 3 ≤ (splitArrow (splitMax 7 line.toList).2.toList).length) :
    unixParseNoOwner line shift now = none := by
  unfold unixParseNoOwner
  set t := splitMax 7 line.toList with ht
  obtain ⟨toks, rest⟩ := t
  rcases toks with _ | ⟨t1, _ | ⟨t2, _ | ⟨t3, _ | ⟨t4, _ | ⟨t5, _ | ⟨t6, _ |
    ⟨t7, _ | ⟨t8, tl⟩⟩⟩⟩⟩⟩⟩⟩
  all_goals try rfl
  exact unixCore_none_of_bad_name _ _ _ _ _ _ _ _ _ _ _
    (parseNameTarget_eq_none _ h)

/-- C6: a Unix-dialect listing line whose name field contains more
than one " -> " separator (in either the primary or the alternative
field layout) is rejected as unparsable, never truncated into some
name/target split. -/
theorem C6_ambiguous_symlink_line_rejected :
    ∀ (line : String) (shift now : Int),
      3 ≤ (splitArrow (splitMax 8 line.toList).2.toList).length →
      3 ≤ (splitArrow (splitMax 7 line.toList).2.toList).length →
      unixParseLine line shift now = none := by
  intro line shift now h8 h7
  unfold unixParseLine
  rw [unixParseWithOwner_none_of_arrows line shift now h8]
  exact unixParseNoOwner_none_of_arrows line shift now h7

/-- C6, witness: the doubly-ambiguous symlink line from the test suite
is rejected. -/
theorem C6_witness :
    unixParseLine
      "drwxr-sr-x   2 45854    200           512 May 29  2000 os1 -> os2 -> os3"
      0 0 = none :=
  C6_ambiguous_symlink_line_rejected
    "drwxr-sr-x   2 45854    200           512 May 29  2000 os1 -> os2 -> os3"
    0 0 (by decide) (by decide)

/-- Interpreting a pre-epoch raw time degrades it to the zero
timestamp with unknown precision instead of failing. -/
theorem parseUnixTime_pre_epoch (mon day : Nat) (ytS : String)
    (shift now t : Int) (p : Option Int)
    (hraw : unixRawTime mon day ytS shift now = some (t, p)) (ht : t < 0) :
    parseUnixTime mon day ytS shift now = some (0, UNKNOWN_PRECISION) := by
  simp [parseUnixTime, hraw, degradePreEpoch, ht]

/-- A well-formed tokenized Unix line with a pre-epoch date assembles
into a record with timestamp zero and unknown precision. -/
theorem unixCore_pre_epoch (rest modeS nlinkS : String)
    (ownerS groupS : Option String) (sizeS monS dayS ytS : String)
    (shift now : Int) (mode nlink size mon day : Nat) (t : Int)
    (p : Option Int) (nm : String) (tgt : Option String)
    (hmode : parseMode modeS = some mode)
    (hnlink : parseDecNat nlinkS = some nlink)
    (hsize : parseDecNat sizeS = some size)
    (hmon : monthNumber monS = some mon)
    (hday : parseDecNat dayS = some day)
    (hday1 : 1 ≤ day) (hday31 : day ≤ 31)
    (hraw : unixRawTime mon day ytS shift now = some (t, p)) (ht : t < 0)
    (hnt : parseNameTarget rest = some (nm, tgt)) (hnm : nm ≠ "") :
    unixCore rest modeS nlinkS ownerS groupS sizeS monS dayS ytS shift now =
      some { st_mode := mode, st_nlink := some nlink, st_uid := ownerS,
             st_gid := groupS, st_size := some size, st_mtime := 0,
             st_mtime_precision := UNKNOWN_PRECISION, st_name := nm,
             st_target := tgt } := by
  have hdaycond : ¬ (day < 1 ∨ 31 < day) := by omega
  have htime := parseUnixTime_pre_epoch mon day ytS shift now t p hraw ht
  simp [unixCore, hnt, hnm, hmode, hnlink, hsize, hmon, hday, hdaycond, htime]
  omega

/-- C7: an otherwise well-formed listing line whose date interprets to
a timestamp before the epoch parses successfully, with timestamp zero
and unknown precision (never an exact one) — in the Unix dialect under
both field layouts (owner present or missing) and in the DOS/Windows
dialect. -/
theorem C7_pre_epoch_degrades_to_unknown :
    (∀ (line : String) (shift now : Int)
      (modeS nlinkS ownerS groupS sizeS monS dayS ytS rest : String)
      (mode nlink size mon day : Nat) (t : Int) (p : Option Int)
      (nm : String) (tgt : Option String),
      splitMax 8 line.toList =
        ([modeS, nlinkS, ownerS, groupS, sizeS, monS, dayS, ytS], rest) →
      parseMode modeS = some mode →
      parseDecNat nlinkS = some nlink →
      parseDecNat sizeS = some size →
      monthNumber monS = some mon →
      parseDecNat dayS = some day →
      1 ≤ day → day ≤ 31 →
      unixRawTime mon day ytS shift now = some (t, p) →
      t < 0 →
      parseNameTarget rest = some (nm, tgt) →
      nm ≠ "" →
      unixParseLine line shift now =
        some { st_mode := mode, st_nlink := some nlink, st_uid := some ownerS,
               st_gid := some groupS, st_size := some size, st_mtime := 0,
               st_mtime_precision := UNKNOWN_PRECISION, st_name := nm,
               st_target := tgt }) ∧
    (∀ (line : String) (shift now : Int)
      (modeS nlinkS groupS sizeS monS dayS ytS rest : String)
      (mode nlink size mon day : Nat) (t : Int) (p : Option Int)
      (nm : String) (tgt : Option String),
      unixParseWithOwner line shift now = none →
      splitMax 7 line.toList =
        ([modeS, nlinkS, groupS, sizeS, monS, dayS, ytS], rest) →
      parseMode modeS = some mode →
      parseDecNat nlinkS = some nlink →
      parseDecNat sizeS = some size →
      monthNumber monS = some mon →
      parseDecNat dayS = some day →
      1 ≤ day → day ≤ 31 →
      unixRawTime mon day ytS shift now = some (t, p) →
      t < 0 →
      parseNameTarget rest = some (nm, tgt) →
      nm ≠ "" →
      unixParseLine line shift now =
        some { st_mode := mode, st_nlink := some nlink, st_uid := none,
               st_gid := some groupS, st_size := some size, st_mtime := 0,
               st_mtime_precision := UNKNOWN_PRECISION, st_name := nm,
               st_target := tgt }) ∧
    (∀ (line : String) (shift now : Int) (dateS timeS dirOrSize rest : String)
      (y mon d hh mm mode : Nat) (size : Option Nat),
      splitMax 3 line.toList = ([dateS, timeS, dirOrSize], rest) →
      rest ≠ "" →
      parseMsDate dateS = some (y, mon, d) →
      parseMsTime timeS = some (hh, mm) →
      msModeSize dirOrSize = some (mode, size) →
      toSeconds (y : Int) mon d hh mm < 0 →
      msParseLine line shift now =
        some { st_mode := mode, st_nlink := none, st_uid := none,
               st_gid := none, st_size := size, st_mtime := 0,
               st_mtime_precision := UNKNOWN_PRECISION, st_name := rest,
               st_target := none }) := by
  refine ⟨?_, ?_, ?_⟩
  · intro line shift now modeS nlinkS ownerS groupS sizeS monS dayS ytS rest
      mode nlink size mon day t p nm tgt hsplit hmode hnlink hsize hmon hday
      hday1 hday31 hraw ht hnt hnm
    have hatt : unixParseWithOwner line shift now =
        some { st_mode := mode, st_nlink := some nlink, st_uid := some ownerS,
               st_gid := some groupS, st_size := some size, st_mtime := 0,
               st_mtime_precision := UNKNOWN_PRECISION, st_name := nm,
               st_target := tgt } := by
      unfold unixParseWithOwner
      rw [hsplit]
      exact unixCore_pre_epoch rest modeS nlinkS (some ownerS) (some groupS)
        sizeS monS dayS ytS shift now mode nlink size mon day t p nm tgt
        hmode hnlink hsize hmon hday hday1 hday31 hraw ht hnt hnm
    unfold unixParseLine
    rw [hatt]
  · intro line shift now modeS nlinkS groupS sizeS monS dayS ytS rest
      mode nlink size mon day t p nm tgt hfail hsplit hmode hnlink hsize hmon
      hday hday1 hday31 hraw ht hnt hnm
    have hatt : unixParseNoOwner line shift now =
        some { st_mode := mode, st_nlink := some nlink, st_uid := none,
               st_gid := some groupS, st_size := some size, st_mtime := 0,
               st_mtime_precision := UNKNOWN_PRECISION, st_name := nm,
               st_target := tgt } := by
      unfold unixParseNoOwner
      rw [hsplit]
      exact unixCore_pre_epoch rest modeS nlinkS none (some groupS)
        sizeS monS dayS ytS shift now mode nlink size mon day t p nm tgt
        hmode hnlink hsize hmon hday hday1 hday31 hraw ht hnt hnm
    unfold unixParseLine
    rw [hfail]
    exact hatt
  · intro line shift now dateS timeS dirOrSize rest y mon d hh mm mode size
      hsplit hrest hdate htime hms hneg
    unfold msParseLine
    rw [hsplit]
    simp [hrest, hdate, htime, hms, degradePreEpoch, hneg]

/-- C7, witness: the pre-epoch lines from the test suite — a Unix line
with owner and group, a Unix line with the owner column missing, and
the DOS-style 1968 SYNC line — all parse to a zero timestamp with
unknown precision. -/
theorem C7_witness :
    unixParseLine
      "-rw-r--r--   1 45854    200          4604 May  4  1968 index.html"
      0 0 =
      some { st_mode := 33188, st_nlink := some 1, st_uid := some "45854",
             st_gid := some "200", st_size := some 4604, st_mtime := 0,
             st_mtime_precision := UNKNOWN_PRECISION, st_name := "index.html",
             st_target := none } ∧
    unixParseLine
      "-rw-r--r--   1   200          4604 May  4  1968 index.html"
      0 0 =
      some { st_mode := 33188, st_nlink := some 1, st_uid := none,
             st_gid := some "200", st_size := some 4604, st_mtime := 0,
             st_mtime_precision := UNKNOWN_PRECISION, st_name := "index.html",
             st_target := none } ∧
    msParseLine "10-19-1968  03:13PM       <DIR>          SYNC" 0 0 =
      some { st_mode := 16640, st_nlink := none, st_uid := none,
             st_gid := none, st_size := none, st_mtime := 0,
             st_mtime_precision := UNKNOWN_PRECISION, st_name := "SYNC",
             st_target := none } :=
  ⟨C7_pre_epoch_degrades_to_unknown.1
      "-rw-r--r--   1 45854    200          4604 May  4  1968 index.html"
      0 0 "-rw-r--r--" "1" "45854" "200" "4604" "May" "4" "1968" "index.html"
      33188 1 4604 5 4 (-52444800) (some 86400) "index.html" none
      (by decide) (by decide) (by decide) (by decide) (by decide) (by decide)
      (by decide) (by decide) (by decide) (by decide) (by decide) (by decide),
   C7_pre_epoch_degrades_to_unknown.2.1
      "-rw-r--r--   1   200          4604 May  4  1968 index.html"
      0 0 "-rw-r--r--" "1" "200" "4604" "May" "4" "1968" "index.html"
      33188 1 4604 5 4 (-52444800) (some 86400) "index.html" none
      (by decide) (by decide) (by decide) (by decide) (by decide) (by decide)
      (by decide) (by decide) (by decide) (by decide) (by decide) (by decide)
      (by decide),
   C7_pre_epoch_degrades_to_unknown.2.2
      "10-19-1968  03:13PM       <DIR>          SYNC" 0 0
      "10-19-1968" "03:13PM" "<DIR>" "SYNC" 1968 10 19 15 13 16640 none
      (by decide) (by decide) (by decide) (by decide) (by decide) (by decide)⟩

/-- The Unix listing line of the C1 scenario. -/
def c1Line : String :=
  "-rw-r--r--   1 45854    200          4604 Dec 19 23:11 index.html"

/-- C1: the Unix listing line for index.html, parsed with clock shift
zero, parses successfully into a record with mode bits 0o100644, size
4604 and exact-minute (60 second) precision, whenever the inferred
time-of-day timestamp is on or after the epoch (any realistic clock). -/
theorem C1_unix_listing_line_fields :
    ∀ now : Int, 0 ≤ inferredTime 0 now 12 19 23 11 →
      (unixParseLine c1Line 0 now).map
        (fun r => (r.st_mode, r.st_size, r.st_mtime_precision)) =
      some (0o100644, some 4604, MINUTE_PRECISION) := by
  intro now h
  have hsplit : splitMax 8 c1Line.toList =
      (["-rw-r--r--", "1", "45854", "200", "4604", "Dec", "19", "23:11"],
       "index.html") := by decide
  have hraw : unixRawTime 12 19 "23:11" 0 now =
      some (inferredTime 0 now 12 19 23 11, MINUTE_PRECISION) := by
    unfold unixRawTime
    rw [if_pos (by decide : ("23:11".toList.contains ':') = true),
        show parseHourMinute "23:11" = some (23, 11) from by decide]
  have htime : parseUnixTime 12 19 "23:11" 0 now =
      some (inferredTime 0 now 12 19 23 11, MINUTE_PRECISION) := by
    simp [parseUnixTime, hraw, degradePreEpoch, not_lt.mpr h]
  have hatt : unixParseWithOwner c1Line 0 now =
      some { st_mode := 33188, st_nlink := some 1, st_uid := some "45854",
             st_gid := some "200", st_size := some 4604,
             st_mtime := inferredTime 0 now 12 19 23 11,
             st_mtime_precision := MINUTE_PRECISION, st_name := "index.html",
             st_target := none } := by
    unfold unixParseWithOwner
    rw [hsplit]
    simp [unixCore, htime,
      show parseNameTarget "index.html" = some ("index.html", none) from by decide,
      show ("index.html" : String) ≠ "" from by decide,
      show parseMode "-rw-r--r--" = some 33188 from by decide,
      show parseDecNat "1" = some 1 from by decide,
      show parseDecNat "4604" = some 4604 from by decide,
      show monthNumber "Dec" = some 12 from by decide,
      show parseDecNat "19" = some 19 from by decide]
  unfold unixParseLine
  rw [hatt]
  rfl

/-- C1, witness: at a concrete present-day clock the line parses with
mode 0o100644, size 4604 and exact-minute precision. -/
theorem C1_witness :
    (unixParseLine c1Line 0 1760227200).map
      (fun r => (r.st_mode, r.st_size, r.st_mtime_precision)) =
    some (0o100644, some 4604, MINUTE_PRECISION) :=
  C1_unix_listing_line_fields 1760227200 (by decide)

end FTPClient
